import Mathlib

/-!
Shallow embedding of the core pipeline of the gmail-job-application-tracker
repository: incremental Gmail ingestion (`fetchAndStoreGmailEmails`), the
classification gate, the OpenAI classifier (`classifyEmail`, `callChat`),
the per-company aggregator (`upsertJobStatus`) and the company query
(`filterEmailsByCompany`).

JavaScript numbers that hold millisecond timestamps and counters are
modelled as `Nat`; optional / possibly-`undefined` fields as `Option`;
the Cosmos containers as functions `String → Option doc` keyed by document
id (the partition key is a fixed single owner in every claim considered,
so it is not part of the key); async effects are modelled by explicit
state passing.  `JSON.parse` of the classifier response is modelled by an
abstract parse function into a small JSON value type.
-/

namespace GmailTracker

/-- `ClassificationResult` from `src/types.ts` (part_000).  `status` is kept
as a raw string because the server duck-types the model's JSON: the stored
value is whatever string the model returned. -/
structure ClassificationResult where
  is_job_related : Bool
  status : String
  summary : String
  company_name : String
deriving DecidableEq

/-- One Gmail header object `{name, value}`; `value` may be absent. -/
structure Header where
  name : String
  value : Option String
deriving DecidableEq

/-- `GmailEmailDoc` from `src/types.ts` / the documents built by
`fetchAndStoreGmailEmails`.  `fromAddr` models the `from` field (a Lean
keyword).  `classification`, `classifiedAt`, `createdAt` are optional:
they are absent on a freshly built document. -/
structure EmailDoc where
  id : String
  owner : String
  fromAddr : String
  toAddr : String
  subject : String
  date : String
  snippet : String
  body : String
  labelIds : List String
  fetchedAt : String
  internalDate : Nat
  classification : Option ClassificationResult
  classifiedAt : Option String
  createdAt : Option String
deriving DecidableEq

/-- A stored comment entry on a job rollup.  Legacy documents stored plain
strings; current code stores `{date, note}` objects.  `upsertJobStatus`
upgrades legacy lists in place, so both shapes can occur in a read
document. -/
inductive CommentValue where
  | legacy (note : String)
  | entry (date : String) (note : String)
deriving DecidableEq

/-- `JobDoc` from `src/types.ts`: the per-company rollup document. -/
structure JobDoc where
  id : String
  owner : String
  company_name : String
  applied : Nat
  rejected : Nat
  next_steps : Nat
  comments : List CommentValue
  last_updated : String
deriving DecidableEq

/-- The jobs container, keyed by rollup document id. -/
def JobStore : Type := String → Option JobDoc

/-- The gmail container, keyed by message id. -/
def EmailStore : Type := String → Option EmailDoc

/-- `container.items.upsert` on the jobs container. -/
def putJob (jobs : JobStore) (k : String) (d : JobDoc) : JobStore :=
  fun j => if j = k then some d else jobs j

/-- `container.items.upsert` on the gmail container. -/
def putEmail (st : EmailStore) (k : String) (d : EmailDoc) : EmailStore :=
  fun j => if j = k then some d else st j

/-- JS `String.prototype.toLowerCase`, modelled character-wise (all the
strings the claims exercise are ASCII). -/
def jsToLower (s : String) : String :=
  String.mk (s.data.map Char.toLower)

/-- JS `String.prototype.trim`: strip whitespace from both ends. -/
def jsTrim (s : String) : String :=
  String.mk (((s.data.dropWhile Char.isWhitespace).reverse.dropWhile
    Char.isWhitespace).reverse)

/-- `extractHeader(headers, name)` from `server.js` (part_005 line 173):
`headers.find((h) => h.name === name)` — an exact, case-SENSITIVE match on
the header name — then `header.value || ''`. -/
def extractHeader (headers : List Header) (name : String) : String :=
  match headers.find? (fun h => h.name == name) with
  | some h => h.value.getD ("")
  | none => ""

/-! ## Company query (`src/companyFilter.ts`) -/

/-- `normalizeCompany` from `companyFilter.ts`: `(name || '').trim().toLowerCase()`. -/
def normalizeCompany (name : String) : String :=
  jsToLower (jsTrim name)

/-- `filterEmailsByCompany` from `companyFilter.ts`.  An empty normalized
query returns `[]` before any matching.  The `typeof company !== 'string'`
guard of the source is the `none` branch of the `classification` match:
in a typed document `company_name` is a string exactly when a
classification object is present. -/
def filterEmailsByCompany (emails : List EmailDoc) (companyName : String) :
    List EmailDoc :=
  let target := normalizeCompany companyName
  if target = "" then []
  else
    emails.filter (fun email =>
      match email.classification with
      | none => false
      | some cl =>
          cl.is_job_related &&
          (cl.status != "not_job_related") &&
          (normalizeCompany cl.company_name == target))

/-- Modelled from the spec (claim C8's wording, for comparison with the
source function): a message matches when a classification is present with
`is_job_related == true`, `status != not_job_related`, and the trimmed,
lowercased company name equals the trimmed, lowercased query. -/
def specMatchesCompany (companyName : String) (email : EmailDoc) : Bool :=
  match email.classification with
  | none => false
  | some cl =>
      cl.is_job_related &&
      (cl.status != "not_job_related") &&
      (normalizeCompany cl.company_name == normalizeCompany companyName)

/-! ## Aggregator (`upsertJobStatus`, part_005 lines 387-470) -/

/-- One step of `companyName.toLowerCase().replace(/\s+/g, '_')`: each
maximal run of whitespace becomes a single underscore.  The boolean flag
records whether the previous character was whitespace (i.e. whether we are
inside a run that already emitted its underscore). -/
def collapseWsAux : Bool → List Char → List Char
  | _, [] => []
  | prevWs, c :: t =>
      if c.isWhitespace then
        if prevWs then collapseWsAux true t
        else '_' :: collapseWsAux true t
      else c :: collapseWsAux false t

/-- `companyName.toLowerCase().replace(/\s+/g, '_')` from `upsertJobStatus`. -/
def companySlug (companyName : String) : String :=
  String.mk (collapseWsAux false (jsToLower companyName).data)

/-- JS `String(x).slice(0, n)` on a string: the first `n` units. -/
def jsSlice (s : String) (n : Nat) : String :=
  String.mk (s.data.take n)

/-- Does a comment list element have the legacy plain-string shape? -/
def isLegacyComment : CommentValue → Bool
  | .legacy _ => true
  | .entry _ _ => false

/-- `(note) => ({ date: today, note: String(note) })` applied to one
element: a legacy string keeps its text; a `{date, note}` object passed
through JS `String(...)` stringifies to `"[object Object]"`. -/
def upgradeCommentValue (today : String) : CommentValue → CommentValue
  | .legacy s => .entry today s
  | .entry _ _ => .entry today ("[object Object]")

/-- The legacy-comment upgrade in `upsertJobStatus`: when the list is
non-empty and its first element is a plain string, every element is
mapped to a `{date: today, note}` entry; otherwise the list is kept. -/
def upgradeComments (today : String) (cs : List CommentValue) : List CommentValue :=
  match cs with
  | [] => cs
  | c :: _ => if isLegacyComment c then cs.map (upgradeCommentValue today) else cs

/-- The zeroed rollup document created when the read finds nothing (404). -/
def initJobDoc (docId ownerEmail companyName today : String) : JobDoc :=
  { id := docId
    owner := ownerEmail
    company_name := companyName
    applied := 0
    rejected := 0
    next_steps := 0
    comments := []
    last_updated := today }

/-- The four actionable status values accepted by `upsertJobStatus`. -/
def actionableStatuses : List String :=
  ["applied", "rejected", "next_steps", "comment_only"]

/-- The counter-increment / comment-append chain of `upsertJobStatus`
(the typed counters are always present, so `(doc.applied || 0)` is
`doc.applied`). -/
def applyStatusUpdate (status summary today : String) (d : JobDoc) : JobDoc :=
  if status = "applied" then { d with applied := d.applied + 1 }
  else if status = "rejected" then { d with rejected := d.rejected + 1 }
  else if status = "next_steps" then { d with next_steps := d.next_steps + 1 }
  else if status = "comment_only" then
    { d with comments := d.comments ++ [.entry today (jsSlice summary 280)] }
  else d

/-- `upsertJobStatus(jobsContainer, ownerRaw, classification)` from
part_005 lines 387-470, with the civil date `today` passed explicitly and
the container as explicit state.  Returns the document the source
returns (or `null`) together with the updated container.  The source
re-throws non-404 read errors; the pure read here is total, and a
missing `resource` and a 404 both land in the `none` branch. -/
def upsertJobStatus (jobs : JobStore) (ownerRaw : String)
    (classification : Option ClassificationResult) (today : String) :
    Option JobDoc × JobStore :=
  match classification with
  | none => (none, jobs)
  | some c =>
      let companyName := jsTrim c.company_name
      let ownerEmail := jsToLower (jsTrim ownerRaw)
      if companyName = "" then (none, jobs)
      else if ownerEmail = "" then (none, jobs)
      else if (!c.is_job_related) || (c.status == "not_job_related") ||
          (!(actionableStatuses.contains c.status)) then (none, jobs)
      else
        let docId := ownerEmail ++ "::" ++ companySlug companyName
        let doc0 := match jobs docId with
          | some d => d
          | none => initJobDoc docId ownerEmail companyName today
        let doc1 := { doc0 with comments := upgradeComments today doc0.comments }
        let doc2 := applyStatusUpdate c.status c.summary today doc1
        let doc3 := { doc2 with last_updated := today }
        (some doc3, putJob jobs docId doc3)

/-- Read one counter off an optional rollup, absent document counting 0. -/
def counterOf (status : String) (o : Option JobDoc) : Nat :=
  match o with
  | none => 0
  | some d =>
      if status = "applied" then d.applied
      else if status = "rejected" then d.rejected
      else if status = "next_steps" then d.next_steps
      else 0

/-- Comment-list length of an optional rollup, absent document counting 0. -/
def commentCountOf (o : Option JobDoc) : Nat :=
  match o with
  | none => 0
  | some d => d.comments.length

/-- Comment list of an optional rollup, absent document counting `[]`. -/
def commentsOf (o : Option JobDoc) : List CommentValue :=
  match o with
  | none => []
  | some d => d.comments

/-- The deterministic rollup id `${ownerEmail}::${companySlug}` computed by
`upsertJobStatus`. -/
def docIdFor (owner : String) (c : ClassificationResult) : String :=
  jsToLower (jsTrim owner) ++ "::" ++ companySlug (jsTrim c.company_name)

/-- The document `upsertJobStatus` writes on a non-skip run: existing (or
zeroed) rollup, comments upgraded, one status mutation applied,
`last_updated` stamped. -/
def mergedJobDoc (jobs : JobStore) (owner : String) (c : ClassificationResult)
    (today : String) : JobDoc :=
  let companyName := jsTrim c.company_name
  let ownerEmail := jsToLower (jsTrim owner)
  let docId := ownerEmail ++ "::" ++ companySlug companyName
  let doc0 := match jobs docId with
    | some d => d
    | none => initJobDoc docId ownerEmail companyName today
  let doc1 := { doc0 with comments := upgradeComments today doc0.comments }
  { applyStatusUpdate c.status c.summary today doc1 with last_updated := today }

/-! ## Classifier transport with retry ladder (`openaiClient.ts`, part_002) -/

/-- The error data `callChat` inspects: the HTTP `status` it attaches to a
non-2xx response, the numeric `code` copied from the response body (a
string-valued code can never strictly equal 429 and is modelled as
`none`), and the error `message`. -/
structure ErrInfo where
  status : Option Nat
  code : Option Nat
  message : String
deriving DecidableEq

/-- JS `a || b` on two optional numbers: `undefined` and `0` are falsy. -/
def jsOrNum (a b : Option Nat) : Option Nat :=
  match a with
  | none => b
  | some 0 => b
  | some s => some s

/-- Does `needle` occur as a contiguous run inside `hay`? (JS
`String.prototype.includes`.) -/
def charsContain (hay needle : List Char) : Bool :=
  match hay with
  | [] => needle.isEmpty
  | _ :: t => needle.isPrefixOf hay || charsContain t needle

/-- `isRateLimit(err)` from `openaiClient.ts`: `err.status || err.code`
strictly equals 429, or the error message lowercased contains
"rate limit". -/
def isRateLimit (e : ErrInfo) : Bool :=
  jsOrNum e.status e.code == some 429 ||
  charsContain (jsToLower e.message).data (jsToLower ("rate limit")).data

/-- The retry condition of `callChat`: `isRateLimit(err) || err.status === 503`. -/
def shouldRetryErr (e : ErrInfo) : Bool :=
  isRateLimit e || e.status == some 503

/-- Outcome of one attempt of the `fetch`-and-parse body of `callChat`:
either the parsed response `data` (`response.ok` true) or the error it
throws/encounters. -/
inductive AttemptOutcome where
  | ok (data : String)
  | fail (e : ErrInfo)
deriving DecidableEq

/-- What a full `callChat` run did: its result, the backoff sleeps it
performed in order, and how many attempts it made. -/
structure CallResult where
  result : Except ErrInfo String
  sleeps : List Nat
  attempts : Nat

/-- The retry loop of `callChat`.  `i` is the current attempt index,
`remaining` the number of retries still allowed (`attempts - 1 - i` in the
source's terms).  On failure the source breaks unless the failure is
retryable and attempts remain; otherwise it sleeps
`policy.backoffMs[i] ?? last` and loops. -/
def callChatGo (outcomes : Nat → AttemptOutcome) (ladder : List Nat) :
    Nat → Nat → CallResult
  | i, remaining =>
      match outcomes i with
      | .ok d => ⟨.ok d, [], 1⟩
      | .fail e =>
          match remaining with
          | 0 => ⟨.error e, [], 1⟩
          | r + 1 =>
              if shouldRetryErr e then
                let rest := callChatGo outcomes ladder (i + 1) r
                ⟨rest.result,
                 ladder.getD i (ladder.getLastD 0) :: rest.sleeps,
                 rest.attempts + 1⟩
              else ⟨.error e, [], 1⟩

/-- `callChat` specialised to a backoff ladder: `attempts = ladder.length + 1`
total tries starting at index 0. -/
def callChatWithLadder (outcomes : Nat → AttemptOutcome) (ladder : List Nat) :
    CallResult :=
  callChatGo outcomes ladder 0 ladder.length

/-- The per-model policy table of `openaiClient.ts`. -/
def modelPolicies (model : String) : Option (List Nat) :=
  if model = "gpt-4o-mini" then some [400, 800, 1600, 3200]
  else if model = "gpt-5-mini" then some [400, 800, 1600, 3200]
  else if model = "gpt-5-nano" then some [300, 600, 1200, 2400]
  else none

/-- `defaultPolicy` of `openaiClient.ts`. -/
def defaultPolicy : List Nat := [500, 1000, 2000]

/-- The ladder `callChat` uses for a model:
`modelPolicies[options.model] || defaultPolicy`. -/
def policyFor (model : String) : List Nat :=
  (modelPolicies model).getD defaultPolicy

/-- `callChat(options)` from `openaiClient.ts`: throws at once when no API
key is configured (zero attempts), otherwise runs the retry loop over the
model's ladder.  The attempt outcomes (network/HTTP behaviour of each
`fetch`) are supplied as an oracle `outcomes`. -/
def callChat (apiKey : Option String) (model : String)
    (outcomes : Nat → AttemptOutcome) : CallResult :=
  match apiKey with
  | none => ⟨.error ⟨none, none, "OPENAI_API_KEY not set; cannot call OpenAI."⟩, [], 0⟩
  | some _ => callChatWithLadder outcomes (policyFor model)

/-! ## classifyEmail (part_005 lines 331-386) -/

/-- A small JSON value type for the classifier's parsed output. -/
inductive Json where
  | null
  | bool (b : Bool)
  | num (n : Int)
  | str (s : String)
  | arr (elems : List Json)
  | obj (fields : List (String × Json))

/-- What the single `fetch` of `classifyEmail` produced: a thrown
transport/JSON-body error, or a response with its `ok` flag and the
`choices[0].message.content` string (absent field modelled `none`). -/
inductive FetchResult where
  | transportError
  | response (ok : Bool) (content : Option String)
deriving DecidableEq

/-- `classifyEmail(emailDoc)` from part_005: returns `null` with no
request when the API key is unset; otherwise issues one request
(second component counts requests) and returns `JSON.parse(content)` —
with NO schema validation — or `null` on transport error, non-2xx
response, or empty/missing/unparsable content.  `parse` is the abstract
`JSON.parse`, `none` meaning a parse exception. -/
def classifyEmail (parse : String → Option Json) (apiKey : Option String)
    (fetched : FetchResult) : Option Json × Nat :=
  match apiKey with
  | none => (none, 0)
  | some _ =>
      match fetched with
      | .transportError => (none, 1)
      | .response ok content =>
          if !ok then (none, 1)
          else
            match content with
            | none => (none, 1)
            | some c => if c = "" then (none, 1) else (parse c, 1)

/-- A JSON object field lookup (first match). -/
def jsonField (fields : List (String × Json)) (k : String) : Option Json :=
  match fields.find? (fun p => p.fst == k) with
  | some p => some p.snd
  | none => none

/-- Modelled from the spec (§4.2/§6): conformance to the five-variant
`ClassificationResult` schema — an object whose `is_job_related` is a
boolean, whose `status` is one of the five allowed strings, and whose
`summary` and `company_name` are strings. -/
def conformsToSchema (j : Json) : Bool :=
  match j with
  | .obj fields =>
      (match jsonField fields ("is_job_related") with
       | some (.bool _) => true
       | _ => false) &&
      (match jsonField fields ("status") with
       | some (.str s) =>
           ["applied", "rejected", "next_steps", "comment_only",
            "not_job_related"].contains s
       | _ => false) &&
      (match jsonField fields ("summary") with
       | some (.str _) => true
       | _ => false) &&
      (match jsonField fields ("company_name") with
       | some (.str _) => true
       | _ => false)
  | _ => false

/-! ## Sync Engine (`fetchAndStoreGmailEmails`, part_005 lines 502-634)

The Gmail API, clock and classifier are oracles: each remote message
carries its raw `internalDate`, the headers of its full representation,
its extracted body text (the result of `extractMessageBody`, whose
base64/html decoding is external), and the result `classifyEmail` would
produce for it.  Credentials are assumed present (the `NO_GMAIL_TOKENS`
path concerns the token store, which no claim touches), and pagination is
flattened to the concatenated message list, which the per-page loop
processes in order. -/

/-- Fixed per-run data of `fetchAndStoreGmailEmails`. -/
structure SyncEnv where
  owner : String
  fetchedAt : String
  nowIso : String
  nowMs : Nat
  today : String
  apiKeySet : Bool
  jobsPresent : Bool

/-- One listed remote message together with the oracle answers for it.
`classifierResult` is what `classifyEmail` returns if invoked for this
message (`none` = classification failed / returned null). -/
structure RemoteMsg where
  id : String
  internalDateRaw : Option Nat
  headers : List Header
  snippet : String
  bodyText : String
  labelIds : List String
  classifierResult : Option ClassificationResult

/-- Mutable state threaded through the per-message loop. -/
structure StepState where
  emails : EmailStore
  jobs : JobStore
  maxInternal : Nat
  docs : List EmailDoc
  classifierCalls : Nat

/-- `existingDoc.createdAt || doc.fetchedAt`: carry the stored value when
it is a non-empty (truthy) string, else fall back to this fetch's
timestamp. -/
def carryCreatedAt (stored : Option String) (fallback : String) : String :=
  match stored with
  | some s => if s = "" then fallback else s
  | none => fallback

/-- `Number(data.internalDate) || Date.now()`: a missing or zero raw value
falls back to the current time. -/
def resolveInternalDate (raw : Option Nat) (nowMs : Nat) : Nat :=
  match raw with
  | some d => if d = 0 then nowMs else d
  | none => nowMs

/-- The fresh document built for one message (before the existing-document
merge), part_005 lines 576-588. -/
def buildDoc (env : SyncEnv) (m : RemoteMsg) : EmailDoc :=
  let fromV := extractHeader m.headers ("From")
  let subjV := extractHeader m.headers ("Subject")
  let bodyV := if m.bodyText = "" then m.snippet else m.bodyText
  { id := m.id
    owner := env.owner
    fromAddr := if fromV = "" then ("unknown") else fromV
    toAddr := extractHeader m.headers ("To")
    subject := if subjV = "" then ("(No subject)") else subjV
    date := extractHeader m.headers ("Date")
    snippet := m.snippet
    body := bodyV
    labelIds := m.labelIds
    fetchedAt := env.fetchedAt
    internalDate := resolveInternalDate m.internalDateRaw env.nowMs
    classification := none
    classifiedAt := none
    createdAt := none }

/-- The body of the per-message loop of `fetchAndStoreGmailEmails`
(part_005 lines 568-623): build the document, merge the stored one's
classification fields (a read error other than 404 is logged and treated
as no existing document — the `none` branch), upsert, and run the
classification gate: classify only when the upserted document carries no
truthy `classification.status` and both the jobs container and the API key
are present.  On a successful classification the rollup is updated, the
classification is written onto the document and it is upserted again. -/
def processMessage (env : SyncEnv) (st : StepState) (m : RemoteMsg) : StepState :=
  let baseDoc := buildDoc env m
  let maxInternal' :=
    if baseDoc.internalDate > st.maxInternal then baseDoc.internalDate
    else st.maxInternal
  let doc1 := match st.emails m.id with
    | some ex =>
        { baseDoc with
          classification := ex.classification
          classifiedAt := ex.classifiedAt
          createdAt := some (carryCreatedAt ex.createdAt baseDoc.fetchedAt) }
    | none => baseDoc
  let emails1 := putEmail st.emails m.id doc1
  let alreadyClassified := match doc1.classification with
    | some c => c.status != ""
    | none => false
  if (!alreadyClassified) && env.jobsPresent && env.apiKeySet then
    -- classifyEmailAndUpsert(doc, jobsContainer)
    let ownerNorm := jsToLower (jsTrim doc1.owner)
    if ownerNorm = "" then
      { emails := emails1, jobs := st.jobs, maxInternal := maxInternal',
        docs := st.docs ++ [doc1], classifierCalls := st.classifierCalls }
    else
      match m.classifierResult with
      | none =>
          { emails := emails1, jobs := st.jobs, maxInternal := maxInternal',
            docs := st.docs ++ [doc1],
            classifierCalls := st.classifierCalls + 1 }
      | some c =>
          let jobs1 := (upsertJobStatus st.jobs ownerNorm (some c) env.today).snd
          let doc2 := { doc1 with
            classification := some c
            classifiedAt := some env.nowIso }
          { emails := putEmail emails1 m.id doc2, jobs := jobs1,
            maxInternal := maxInternal', docs := st.docs ++ [doc2],
            classifierCalls := st.classifierCalls + 1 }
  else
    { emails := emails1, jobs := st.jobs, maxInternal := maxInternal',
      docs := st.docs ++ [doc1], classifierCalls := st.classifierCalls }

/-- `options` bag of `fetchAndStoreGmailEmails`. -/
structure SyncOptions where
  queryOverride : String
  skipStateUpdate : Bool

/-- The value a sync run produces, with all touched state. -/
structure SyncOutcome where
  fetched : Nat
  emails : EmailStore
  jobs : JobStore
  cursor : Option Nat
  docs : List EmailDoc
  classifierCalls : Nat

/-- `state.lastInternalDateMs ? Number(...) : null`: a stored zero (or
absent) watermark reads as `null`. -/
def readCursor (stored : Option Nat) : Option Nat :=
  match stored with
  | some v => if v = 0 then none else some v
  | none => none

/-- `fetchAndStoreGmailEmails(emailContainer, oauthClient, jobsContainer,
ownerRaw, options)`: normalizes the owner (throwing on blank), reads the
cursor only when no query override is given, folds the per-message loop
over the listed messages starting from `max = lastInternalDateMs || 0`,
returns `fetched = 0` with no cursor write when no documents were
produced, and otherwise persists the observed maximum as the new cursor
exactly when state is in use, the update is not suppressed, and the
maximum strictly exceeds `lastInternalDateMs || 0`. -/
def fetchAndStoreGmailEmails (env : SyncEnv) (opts : SyncOptions)
    (cursor0 : Option Nat) (emails0 : EmailStore) (jobs0 : JobStore)
    (msgs : List RemoteMsg) : Except String SyncOutcome :=
  let ownerEmail := jsToLower (jsTrim env.owner)
  if ownerEmail = "" then .error ("Owner email required for Gmail fetch")
  else
    let useState := opts.queryOverride = ""
    let lastInternalDateMs := if useState then readCursor cursor0 else none
    let init : StepState :=
      { emails := emails0, jobs := jobs0,
        maxInternal := lastInternalDateMs.getD 0, docs := [],
        classifierCalls := 0 }
    let final := msgs.foldl (processMessage { env with owner := ownerEmail }) init
    if final.docs.length = 0 then
      .ok { fetched := 0, emails := final.emails, jobs := final.jobs,
            cursor := cursor0, docs := final.docs,
            classifierCalls := final.classifierCalls }
    else
      let cursor' :=
        if useState && (!opts.skipStateUpdate) &&
            decide (final.maxInternal > lastInternalDateMs.getD 0) then
          some final.maxInternal
        else cursor0
      .ok { fetched := final.docs.length, emails := final.emails,
            jobs := final.jobs, cursor := cursor', docs := final.docs,
            classifierCalls := final.classifierCalls }

/-! ## Concrete sample data used by witnesses and counterexamples -/

/-- The empty jobs container. -/
def emptyJobs : JobStore := fun _ => none

/-- The empty email container. -/
def emptyEmails : EmailStore := fun _ => none

/-! ## Aggregator lemmas and claims C7, C3, C9 -/

/-- The legacy-comment upgrade never changes the number of comments. -/
theorem upgradeComments_length (today : String) (cs : List CommentValue) :
    (upgradeComments today cs).length = cs.length := by
  cases cs with
  | nil => rfl
  | cons c t =>
      simp only [upgradeComments]
      split <;> simp

/-- Claim C7: every skip condition of `upsertJobStatus` — not job related,
status `not_job_related`, status outside the four actionable values, blank
company name, or blank owner — returns `null` and leaves the rollup
container untouched. -/
theorem aggregator_skip_no_mutation (jobs : JobStore) (owner : String)
    (c : ClassificationResult) (today : String)
    (h : c.is_job_related = false ∨ c.status = "not_job_related" ∨
      c.status ∉ actionableStatuses ∨ jsTrim c.company_name = "" ∨
      jsToLower (jsTrim owner) = "") :
    upsertJobStatus jobs owner (some c) today = (none, jobs) := by
  unfold upsertJobStatus
  by_cases hc : jsTrim c.company_name = ""
  · simp [hc]
  · by_cases ho : jsToLower (jsTrim owner) = ""
    · simp [hc, ho]
    · rcases h with h | h | h | h | h
      · simp [hc, ho, h]
      · simp [hc, ho, h]
      · simp [hc, ho, h]
      · exact absurd h hc
      · exact absurd h ho

/-- Witness for C7: a concrete `is_job_related = false` classification is
skipped with the container unchanged. -/
theorem aggregator_skip_no_mutation_witness :
    upsertJobStatus emptyJobs ("u@x.com")
      (some ⟨false, "applied", "s", "Acme"⟩) ("2024-01-01") =
      (none, emptyJobs) :=
  aggregator_skip_no_mutation emptyJobs ("u@x.com")
    ⟨false, "applied", "s", "Acme"⟩ ("2024-01-01") (Or.inl rfl)

/-- On a non-skip run `upsertJobStatus` returns the merged document and
writes it at the deterministic rollup id. -/
theorem upsertJobStatus_eq (jobs : JobStore) (owner : String)
    (c : ClassificationResult) (today : String)
    (hc : jsTrim c.company_name ≠ "") (ho : jsToLower (jsTrim owner) ≠ "")
    (hj : c.is_job_related = true)
    (hs : c.status ∈ actionableStatuses)
    (hn : c.status ≠ "not_job_related") :
    upsertJobStatus jobs owner (some c) today =
      (some (mergedJobDoc jobs owner c today),
       putJob jobs (docIdFor owner c) (mergedJobDoc jobs owner c today)) := by
  unfold upsertJobStatus mergedJobDoc docIdFor
  simp [hc, ho, hj, hs, hn]

/-- One actionable-counter application adds exactly 1 to the matching
counter at the rollup id. -/
theorem counter_step (jobs : JobStore) (owner : String)
    (c : ClassificationResult) (today : String)
    (hj : c.is_job_related = true) (hc : jsTrim c.company_name ≠ "")
    (ho : jsToLower (jsTrim owner) ≠ "")
    (hs : c.status ∈ (["applied", "rejected", "next_steps"] : List String)) :
    counterOf c.status
      ((upsertJobStatus jobs owner (some c) today).snd (docIdFor owner c)) =
      counterOf c.status (jobs (docIdFor owner c)) + 1 := by
  have hs3 : c.status = "applied" ∨ c.status = "rejected" ∨
      c.status = "next_steps" := by simpa using hs
  have hs' : c.status ∈ actionableStatuses := by
    rcases hs3 with h | h | h <;> simp [actionableStatuses, h]
  have hn : c.status ≠ "not_job_related" := by
    rcases hs3 with h | h | h <;> simp [h]
  rw [upsertJobStatus_eq jobs owner c today hc ho hj hs' hn]
  rcases hs3 with h | h | h <;>
    cases hjd : jobs (docIdFor owner c) <;>
      simp only [docIdFor] at hjd <;>
        simp [putJob, mergedJobDoc, docIdFor, applyStatusUpdate, counterOf,
          initJobDoc, h, hjd]

/-- One `comment_only` application adds exactly 1 to the number of stored
comments at the rollup id. -/
theorem comment_step (jobs : JobStore) (owner : String)
    (c : ClassificationResult) (today : String)
    (hj : c.is_job_related = true) (hc : jsTrim c.company_name ≠ "")
    (ho : jsToLower (jsTrim owner) ≠ "") (hs : c.status = "comment_only") :
    commentCountOf
      ((upsertJobStatus jobs owner (some c) today).snd (docIdFor owner c)) =
      commentCountOf (jobs (docIdFor owner c)) + 1 := by
  have hs' : c.status ∈ actionableStatuses := by
    simp [actionableStatuses, hs]
  have hn : c.status ≠ "not_job_related" := by simp [hs]
  rw [upsertJobStatus_eq jobs owner c today hc ho hj hs' hn]
  cases hjd : jobs (docIdFor owner c) <;>
    simp only [docIdFor] at hjd <;>
      simp [putJob, mergedJobDoc, docIdFor, applyStatusUpdate, commentCountOf,
        initJobDoc, hs, hjd, upgradeComments_length]

/-- Claim C3: `upsertJobStatus` is not idempotent.  For an actionable,
non-blank classification, applying it twice increments the matching
counter by 2 (and for `comment_only` appends two comment entries). -/
theorem aggregator_not_idempotent (jobs : JobStore) (owner : String)
    (c : ClassificationResult) (today : String)
    (hj : c.is_job_related = true) (hc : jsTrim c.company_name ≠ "")
    (ho : jsToLower (jsTrim owner) ≠ "") :
    (c.status ∈ (["applied", "rejected", "next_steps"] : List String) →
      counterOf c.status
        ((upsertJobStatus
            ((upsertJobStatus jobs owner (some c) today).snd)
            owner (some c) today).snd (docIdFor owner c)) =
        counterOf c.status (jobs (docIdFor owner c)) + 2) ∧
    (c.status = "comment_only" →
      commentCountOf
        ((upsertJobStatus
            ((upsertJobStatus jobs owner (some c) today).snd)
            owner (some c) today).snd (docIdFor owner c)) =
        commentCountOf (jobs (docIdFor owner c)) + 2) := by
  constructor
  · intro hs
    rw [counter_step _ owner c today hj hc ho hs,
        counter_step jobs owner c today hj hc ho hs]
  · intro hs
    rw [comment_step _ owner c today hj hc ho hs,
        comment_step jobs owner c today hj hc ho hs]

/-- Witness for C3: a concrete `applied` classification applied twice to an
empty container yields counter 2. -/
theorem aggregator_not_idempotent_witness :
    counterOf ("applied")
      ((upsertJobStatus
          ((upsertJobStatus emptyJobs ("u@x.com")
              (some ⟨true, "applied", "s", "Acme"⟩) ("2024-01-01")).snd)
          ("u@x.com") (some ⟨true, "applied", "s", "Acme"⟩)
          ("2024-01-01")).snd
        (docIdFor ("u@x.com") ⟨true, "applied", "s", "Acme"⟩)) =
      counterOf ("applied")
        (emptyJobs (docIdFor ("u@x.com") ⟨true, "applied", "s", "Acme"⟩)) + 2 :=
  (aggregator_not_idempotent emptyJobs ("u@x.com")
      ⟨true, "applied", "s", "Acme"⟩ ("2024-01-01") rfl (by decide)
      (by decide)).1 (by decide)

/-- Claim C9: a `comment_only` classification that passes the skip checks
appends exactly one `{date: today, note}` entry whose note is the summary
truncated to 280 units; a 500-character summary stores exactly 280. -/
theorem comment_only_appends_truncated (jobs : JobStore) (owner : String)
    (c : ClassificationResult) (today : String)
    (hj : c.is_job_related = true) (hs : c.status = "comment_only")
    (hc : jsTrim c.company_name ≠ "") (ho : jsToLower (jsTrim owner) ≠ "") :
    ((upsertJobStatus jobs owner (some c) today).fst).map JobDoc.comments =
      some (upgradeComments today (commentsOf (jobs (docIdFor owner c))) ++
        [CommentValue.entry today (jsSlice c.summary 280)]) ∧
    (c.summary.length = 500 → (jsSlice c.summary 280).length = 280) := by
  constructor
  · have hs' : c.status ∈ actionableStatuses := by
      simp [actionableStatuses, hs]
    have hn : c.status ≠ "not_job_related" := by simp [hs]
    rw [upsertJobStatus_eq jobs owner c today hc ho hj hs' hn]
    cases hjd : jobs (docIdFor owner c) <;>
      simp only [docIdFor] at hjd <;>
        simp [mergedJobDoc, docIdFor, applyStatusUpdate, commentsOf,
          initJobDoc, hs, hjd, upgradeComments]
  · intro hlen
    have h2 : c.summary.data.length = 500 := hlen
    have h3 : (jsSlice c.summary 280).length = (c.summary.data.take 280).length := rfl
    rw [h3, List.length_take]
    omega

set_option maxRecDepth 4000 in
/-- Witness for C9: a concrete 500-character summary stored through a
`comment_only` classification becomes one 280-character note. -/
theorem comment_only_appends_truncated_witness :
    ((upsertJobStatus emptyJobs ("u@x.com")
        (some ⟨true, "comment_only", String.mk (List.replicate 500 'a'), "Acme"⟩)
        ("2024-01-01")).fst).map JobDoc.comments =
      some (upgradeComments ("2024-01-01")
          (commentsOf (emptyJobs
            (docIdFor ("u@x.com")
              ⟨true, "comment_only", String.mk (List.replicate 500 'a'), "Acme"⟩))) ++
        [CommentValue.entry ("2024-01-01")
          (jsSlice (String.mk (List.replicate 500 'a')) 280)]) ∧
      (jsSlice (String.mk (List.replicate 500 'a')) 280).length = 280 := by
  have h := comment_only_appends_truncated emptyJobs ("u@x.com")
    ⟨true, "comment_only", String.mk (List.replicate 500 'a'), "Acme"⟩
    ("2024-01-01") rfl rfl (by decide) (by decide)
  have hlen : (String.mk (List.replicate 500 'a')).length =
      (List.replicate 500 'a').length := rfl
  exact ⟨h.1, h.2 (by rw [hlen]; simp)⟩

/-! ## Claim C5: header lookup -/

/-- Counterexample to C5: the header-name lookup is NOT case-insensitive.
A stored header named `from` is missed when `From` is requested — the
lookup yields `""` although the two names agree up to letter case and the
header's value is non-empty. -/
theorem extractHeader_not_case_insensitive :
    extractHeader [⟨"from", some ("a@x.com")⟩] ("From") = "" ∧
    jsToLower ("from") = jsToLower ("From") ∧
    ("a@x.com" : String) ≠ "" := by
  refine ⟨rfl, by decide, by decide⟩

/-- Claim C5, amended: the header lookup matches the requested name
exactly and case-sensitively — writing the header list as
`pre ++ h :: post` where `h` is the FIRST header whose name is equal (as
a string) to the requested name (no header of `pre` matches exactly),
the lookup returns `h`'s value, and when no header's name is exactly
equal the result is `""` (even if a name matches up to case). -/
theorem extractHeader_exact_match (headers : List Header) (name : String) :
    ((∀ h ∈ headers, h.name ≠ name) → extractHeader headers name = "") ∧
    (∀ (pre : List Header) (h : Header) (post : List Header),
      headers = pre ++ h :: post → h.name = name →
      (∀ h' ∈ pre, h'.name ≠ name) →
      extractHeader headers name = h.value.getD ("")) := by
  constructor
  · intro hnone
    unfold extractHeader
    have : headers.find? (fun h => h.name == name) = none := by
      rw [List.find?_eq_none]
      intro x hx
      simpa using hnone x hx
    rw [this]
  · intro pre h post hsplit hname
    subst hsplit
    unfold extractHeader
    have hfind : ∀ (pre' : List Header), (∀ h' ∈ pre', h'.name ≠ name) →
        (pre' ++ h :: post).find? (fun x => x.name == name) = some h := by
      intro pre'
      induction pre' with
      | nil =>
          intro _
          simp [List.find?_cons, hname]
      | cons p ps ih =>
          intro hpre
          have hp : (p.name == name) = false := by
            simpa using hpre p (by simp)
          have hrec := ih (fun h' hh' => hpre h' (by simp [hh']))
          simp [List.find?_cons, hp, hrec]
    intro hpre
    rw [hfind pre hpre]

/-- Witness for C5's amended statement: with duplicate exactly-matching
header names the FIRST match's value is returned (a case-mismatched
header earlier in the list is skipped), and a list with only a
case-mismatched name yields `""`. -/
theorem extractHeader_exact_match_witness :
    extractHeader
        [⟨"from", some ("skip")⟩, ⟨"From", some ("first")⟩,
         ⟨"From", some ("second")⟩] ("From") = "first" ∧
    extractHeader [⟨"from", some ("a@x.com")⟩] ("From") = "" :=
  ⟨(extractHeader_exact_match
      [⟨"from", some ("skip")⟩, ⟨"From", some ("first")⟩,
       ⟨"From", some ("second")⟩] ("From")).2
      [⟨"from", some ("skip")⟩] ⟨"From", some ("first")⟩
      [⟨"From", some ("second")⟩] rfl rfl (by decide),
   (extractHeader_exact_match [⟨"from", some ("a@x.com")⟩] ("From")).1
      (by decide)⟩

/-! ## Claim C8: company filter -/

/-- Counterexample to C8: with a blank query, a stored job-related message
whose classified company name is also blank satisfies the claim's match
predicate, yet `filterEmailsByCompany` returns `[]` (the early blank-query
exit), so the function does not return exactly the matching messages. -/
theorem filter_blank_query_mismatch :
    filterEmailsByCompany
        [{ id := "1", owner := "u@x.com", fromAddr := "a", toAddr := "b",
           subject := "s", date := "d", snippet := "sn", body := "bd",
           labelIds := [], fetchedAt := "f", internalDate := 1,
           classification := some ⟨true, "applied", "sum", ""⟩,
           classifiedAt := none, createdAt := none }] ("") = [] ∧
    specMatchesCompany ("")
      { id := "1", owner := "u@x.com", fromAddr := "a", toAddr := "b",
        subject := "s", date := "d", snippet := "sn", body := "bd",
        labelIds := [], fetchedAt := "f", internalDate := 1,
        classification := some ⟨true, "applied", "sum", ""⟩,
        classifiedAt := none, createdAt := none } = true := by
  constructor
  · rfl
  · rfl

/-- Claim C8, amended: for a query that is non-blank after normalization,
`filterEmailsByCompany` returns exactly the messages with a classification
present, `is_job_related == true`, `status != not_job_related`, and
normalized company name equal to the normalized query; a query that is
blank after normalization returns `[]` regardless of matches. -/
theorem filter_company_exact (emails : List EmailDoc) (companyName : String) :
    (normalizeCompany companyName = "" →
      filterEmailsByCompany emails companyName = []) ∧
    (normalizeCompany companyName ≠ "" →
      filterEmailsByCompany emails companyName =
        emails.filter (specMatchesCompany companyName)) := by
  constructor
  · intro h
    simp [filterEmailsByCompany, h]
  · intro h
    unfold filterEmailsByCompany specMatchesCompany
    rw [if_neg h]

/-- Witness for C8's amended statement: a non-blank query filters by the
match predicate ("ACME" finds the "Acme" classification). -/
theorem filter_company_exact_witness :
    filterEmailsByCompany
        [{ id := "1", owner := "u@x.com", fromAddr := "a", toAddr := "b",
           subject := "s", date := "d", snippet := "sn", body := "bd",
           labelIds := [], fetchedAt := "f", internalDate := 1,
           classification := some ⟨true, "applied", "sum", "Acme"⟩,
           classifiedAt := none, createdAt := none }] ("ACME") =
      List.filter (specMatchesCompany ("ACME"))
        [{ id := "1", owner := "u@x.com", fromAddr := "a", toAddr := "b",
           subject := "s", date := "d", snippet := "sn", body := "bd",
           labelIds := [], fetchedAt := "f", internalDate := 1,
           classification := some ⟨true, "applied", "sum", "Acme"⟩,
           classifiedAt := none, createdAt := none }] :=
  (filter_company_exact
      [{ id := "1", owner := "u@x.com", fromAddr := "a", toAddr := "b",
         subject := "s", date := "d", snippet := "sn", body := "bd",
         labelIds := [], fetchedAt := "f", internalDate := 1,
         classification := some ⟨true, "applied", "sum", "Acme"⟩,
         classifiedAt := none, createdAt := none }] ("ACME")).2 (by decide)

/-! ## Claim C4: classifier retry policy -/

/-- A non-retryable failure on the current attempt stops `callChat` at
once: one attempt, no sleeps. -/
theorem callChatGo_abort (outcomes : Nat → AttemptOutcome) (ladder : List Nat)
    (i remaining : Nat) (e : ErrInfo) (h : outcomes i = .fail e)
    (hr : shouldRetryErr e = false) :
    callChatGo outcomes ladder i remaining = ⟨.error e, [], 1⟩ := by
  cases remaining <;> simp [callChatGo, h, hr]

/-- Structure of one `callChatGo` run: between 1 and `remaining + 1`
attempts, the sleeps are exactly the consumed slice of the ladder, and
every retry was caused by a retryable failure. -/
theorem callChatGo_spec (outcomes : Nat → AttemptOutcome) (ladder : List Nat) :
    ∀ remaining i, i + remaining = ladder.length →
      1 ≤ (callChatGo outcomes ladder i remaining).attempts ∧
      (callChatGo outcomes ladder i remaining).attempts ≤ remaining + 1 ∧
      (callChatGo outcomes ladder i remaining).sleeps =
        (ladder.drop i).take
          ((callChatGo outcomes ladder i remaining).attempts - 1) ∧
      (∀ j, j < (callChatGo outcomes ladder i remaining).attempts - 1 →
        ∃ e, outcomes (i + j) = .fail e ∧ shouldRetryErr e = true) := by
  intro remaining
  induction remaining with
  | zero =>
      intro i hi
      cases ho : outcomes i <;> simp [callChatGo, ho]
  | succ r ih =>
      intro i hi
      cases ho : outcomes i with
      | ok d => simp [callChatGo, ho]
      | fail e =>
          by_cases hre : shouldRetryErr e = true
          · have hi' : (i + 1) + r = ladder.length := by omega
            obtain ⟨h1, h2, h3, h4⟩ := ih (i + 1) hi'
            have hgo : callChatGo outcomes ladder i (r + 1) =
                ⟨(callChatGo outcomes ladder (i + 1) r).result,
                 ladder.getD i (ladder.getLastD 0) ::
                   (callChatGo outcomes ladder (i + 1) r).sleeps,
                 (callChatGo outcomes ladder (i + 1) r).attempts + 1⟩ := by
              conv_lhs => rw [callChatGo]
              simp [ho, hre]
            rw [hgo]
            have hilt : i < ladder.length := by omega
            have hdrop : ladder.drop i = ladder[i] :: ladder.drop (i + 1) :=
              List.drop_eq_getElem_cons hilt
            have hgetD : ladder.getD i (ladder.getLastD 0) = ladder[i] := by
              simp [List.getD_eq_getElem?_getD, List.getElem?_eq_getElem hilt]
            refine ⟨by simp, by simp; omega, ?_, ?_⟩
            · have ha : (callChatGo outcomes ladder (i + 1) r).attempts + 1 - 1 =
                  ((callChatGo outcomes ladder (i + 1) r).attempts - 1) + 1 := by
                omega
              simp only [ha, hdrop, hgetD, List.take_succ_cons]
              simp [h3]
            · intro j hj
              simp only at hj
              cases j with
              | zero => exact ⟨e, by simpa using ho, hre⟩
              | succ jj =>
                  have := h4 jj (by omega)
                  simpa [Nat.add_assoc, Nat.add_comm 1 jj,
                    Nat.add_left_comm] using this
          · have hre' : shouldRetryErr e = false := by
              simpa using hre
            rw [callChatGo_abort outcomes ladder i (r + 1) e ho hre']
            simp

/-- The 429-then-success oracle of the spec's E2E scenario: rate-limit
failures on attempts 1 and 2, success on attempt 3. -/
def outcomes429 : Nat → AttemptOutcome := fun n =>
  if n < 2 then .fail ⟨some 429, none, "Too Many Requests"⟩ else .ok ("data")

/-- Claim C4: with an API key configured, `callChat` makes at most
`ladder.length + 1` attempts, its sleeps are the ladder's prefix consumed
in order, every retry is caused by a retryable failure (429 by
status/code, "rate limit" in the message, or 503), a non-retryable first
failure aborts after one attempt with no sleep, and the ladder
`[400, 800, 1600]` with 429s on attempts 1-2 then success sleeps exactly
twice and returns the result. -/
theorem classifier_retry_policy (k model : String)
    (outcomes : Nat → AttemptOutcome) :
    (callChat (some k) model outcomes).attempts ≤ (policyFor model).length + 1 ∧
    (callChat (some k) model outcomes).sleeps =
      (policyFor model).take ((callChat (some k) model outcomes).attempts - 1) ∧
    (∀ j, j < (callChat (some k) model outcomes).attempts - 1 →
      ∃ e, outcomes j = .fail e ∧ shouldRetryErr e = true) ∧
    (∀ e, outcomes 0 = .fail e → shouldRetryErr e = false →
      callChat (some k) model outcomes = ⟨.error e, [], 1⟩) ∧
    callChatWithLadder outcomes429 [400, 800, 1600] =
      ⟨.ok ("data"), [400, 800], 3⟩ := by
  obtain ⟨h1, h2, h3, h4⟩ :=
    callChatGo_spec outcomes (policyFor model) (policyFor model).length 0
      (by omega)
  refine ⟨h2, ?_, ?_, ?_, ?_⟩
  · simpa [callChat, callChatWithLadder] using h3
  · intro j hj
    have := h4 j (by simpa [callChat, callChatWithLadder] using hj)
    simpa using this
  · intro e he hre
    show callChatWithLadder outcomes (policyFor model) = _
    unfold callChatWithLadder
    exact callChatGo_abort outcomes (policyFor model) 0 _ e he hre
  · rfl

/-! ## Claim C6: classifyEmail failure semantics -/

/-- A `JSON.parse` oracle that parses the array text `[1]` and nothing
else.  `JSON.parse("[1]")` succeeds in JS, and the resulting array does
not conform to the classification schema. -/
def parseArrayOnly : String → Option Json := fun s =>
  if s = "[1]" then some (.arr [.num 1]) else none

/-- Counterexample to C6: a 2xx response whose content parses as JSON that
does NOT conform to the five-variant schema is returned as-is — the call
is not treated as failed and the result is not `null`, contradicting the
claim's "parsed JSON that does not conform to the schema" failure case. -/
theorem classify_returns_unvalidated_json :
    (classifyEmail parseArrayOnly (some ("k"))
        (.response true (some ("[1]")))).fst =
      some (Json.arr [Json.num 1]) ∧
    conformsToSchema (Json.arr [Json.num 1]) = false :=
  ⟨rfl, rfl⟩

/-- Claim C6, amended: with an API key configured, `classifyEmail` returns
`null` exactly when the transport throws, the response is non-2xx, the
content is missing/empty, or the content is unparsable JSON; any
successfully parsed JSON — conforming to the schema or not — is returned
unvalidated. -/
theorem classify_null_iff_transport_failure (parse : String → Option Json)
    (k : String) (r : FetchResult) :
    (classifyEmail parse (some k) r).fst = none ↔
      (r = .transportError ∨
       (∃ content, r = .response false content) ∨
       r = .response true none ∨
       r = .response true (some "") ∨
       (∃ s, r = .response true (some s) ∧ s ≠ "" ∧ parse s = none)) := by
  cases r with
  | transportError => simp [classifyEmail]
  | response ok content =>
      cases ok with
      | false => simp [classifyEmail]
      | true =>
          cases content with
          | none => simp [classifyEmail]
          | some s =>
              by_cases hs : s = ""
              · subst hs
                simp [classifyEmail]
              · cases hp : parse s with
                | none => simp [classifyEmail, hs, hp]
                | some j => simp [classifyEmail, hs, hp]

/-! ## Claim C1: the classification gate on refetch -/

/-- Claim C1, amended: when the stored document for a refetched message
already carries a classification with a set (truthy) status, the merged
upserted document keeps the stored `classification` and `classifiedAt`
unchanged, its `createdAt` is the stored value when that is present and
non-empty and otherwise this fetch's `fetchedAt`, the Classifier is not
invoked for the message, and the rollups are untouched. -/
theorem refetch_keeps_classification (env : SyncEnv) (st : StepState)
    (m : RemoteMsg) (ex : EmailDoc) (c : ClassificationResult)
    (hex : st.emails m.id = some ex) (hcl : ex.classification = some c)
    (hst : c.status ≠ "") :
    ((processMessage env st m).emails m.id).map EmailDoc.classification =
      some (some c) ∧
    ((processMessage env st m).emails m.id).map EmailDoc.classifiedAt =
      some ex.classifiedAt ∧
    ((processMessage env st m).emails m.id).map EmailDoc.createdAt =
      some (some (carryCreatedAt ex.createdAt env.fetchedAt)) ∧
    (processMessage env st m).classifierCalls = st.classifierCalls ∧
    (processMessage env st m).jobs = st.jobs := by
  have hbne : (c.status != "") = true := by simpa using hst
  unfold processMessage
  rw [hex]
  simp [hcl, hbne, putEmail, buildDoc, carryCreatedAt]

/-- Sample stored document for the C1 scenario: classified, but stored
without a `createdAt` (the shape every document classified on first fetch
has, since `createdAt` is only ever set during a refetch merge). -/
def exC1Doc : EmailDoc :=
  { id := "m1", owner := "u@x.com", fromAddr := "a", toAddr := "b",
    subject := "s", date := "d", snippet := "sn", body := "bd",
    labelIds := [], fetchedAt := "2024-05-01T00:00:00Z", internalDate := 1000,
    classification := some ⟨true, "applied", "sum", "Acme"⟩,
    classifiedAt := some ("2024-05-01T01:00:00Z"), createdAt := none }

/-- Environment for the C1 scenario. -/
def envC1 : SyncEnv :=
  { owner := "u@x.com", fetchedAt := "2024-06-01T00:00:00Z",
    nowIso := "2024-06-01T00:00:01Z", nowMs := 5000, today := "2024-06-01",
    apiKeySet := true, jobsPresent := true }

/-- Loop state for the C1 scenario: the store holds `exC1Doc` under "m1". -/
def stC1 : StepState :=
  { emails := fun j => if j = "m1" then some exC1Doc else none,
    jobs := fun _ => none, maxInternal := 0, docs := [], classifierCalls := 0 }

/-- The refetch of message "m1" in the C1 scenario. -/
def msgC1 : RemoteMsg :=
  { id := "m1", internalDateRaw := some 2000, headers := [], snippet := "sn",
    bodyText := "bd", labelIds := [], classifierResult := none }

/-- Counterexample to C1: refetching a classified message whose stored
document has no `createdAt` does NOT leave `createdAt` unchanged — the
merge writes this fetch's `fetchedAt` into it (the stored document is
present and classified, yet the upserted `createdAt` differs from the
stored one). -/
theorem refetch_createdAt_changes :
    stC1.emails ("m1") = some exC1Doc ∧
    exC1Doc.classification.map ClassificationResult.status =
      some ("applied") ∧
    ((processMessage envC1 stC1 msgC1).emails ("m1")).map EmailDoc.createdAt =
      some (some ("2024-06-01T00:00:00Z")) ∧
    ((processMessage envC1 stC1 msgC1).emails ("m1")).map EmailDoc.createdAt ≠
      some exC1Doc.createdAt :=
  ⟨rfl, rfl, rfl, by decide⟩

/-- Witness for C1's amended statement at the concrete refetch scenario. -/
theorem refetch_keeps_classification_witness :
    ((processMessage envC1 stC1 msgC1).emails ("m1")).map
        EmailDoc.classification =
      some (some ⟨true, "applied", "sum", "Acme"⟩) ∧
    ((processMessage envC1 stC1 msgC1).emails ("m1")).map
        EmailDoc.classifiedAt = some exC1Doc.classifiedAt ∧
    ((processMessage envC1 stC1 msgC1).emails ("m1")).map
        EmailDoc.createdAt =
      some (some (carryCreatedAt exC1Doc.createdAt envC1.fetchedAt)) ∧
    (processMessage envC1 stC1 msgC1).classifierCalls =
      stC1.classifierCalls ∧
    (processMessage envC1 stC1 msgC1).jobs = stC1.jobs :=
  refetch_keeps_classification envC1 stC1 msgC1 exC1Doc
    ⟨true, "applied", "sum", "Acme"⟩ rfl rfl (by decide)

/-! ## Claim C2: cursor monotonicity -/

/-- The running maximum never decreases across one message. -/
theorem processMessage_maxInternal_ge (env : SyncEnv) (st : StepState)
    (m : RemoteMsg) : st.maxInternal ≤ (processMessage env st m).maxInternal := by
  unfold processMessage
  dsimp only
  split
  · split
    · dsimp only
      split <;> omega
    · split <;> dsimp only <;> split <;> omega
  · dsimp only
    split <;> omega

/-- The running maximum never decreases across the whole run. -/
theorem foldl_maxInternal_ge (env : SyncEnv) :
    ∀ (msgs : List RemoteMsg) (st : StepState),
      st.maxInternal ≤ (msgs.foldl (processMessage env) st).maxInternal := by
  intro msgs
  induction msgs with
  | nil => intro st; exact Nat.le_refl _
  | cons m t ih =>
      intro st
      calc st.maxInternal ≤ (processMessage env st m).maxInternal :=
            processMessage_maxInternal_ge env st m
        _ ≤ _ := ih (processMessage env st m)

/-- Every processed message appends exactly one document. -/
theorem processMessage_docs_len (env : SyncEnv) (st : StepState)
    (m : RemoteMsg) :
    (processMessage env st m).docs.length = st.docs.length + 1 := by
  unfold processMessage
  dsimp only
  split
  · split
    · simp
    · split <;> simp
  · simp

/-- The run produces one document per listed message. -/
theorem foldl_docs_len (env : SyncEnv) :
    ∀ (msgs : List RemoteMsg) (st : StepState),
      (msgs.foldl (processMessage env) st).docs.length =
        st.docs.length + msgs.length := by
  intro msgs
  induction msgs with
  | nil => intro st; simp
  | cons m t ih =>
      intro st
      rw [List.foldl_cons, ih (processMessage env st m),
        processMessage_docs_len env st m]
      simp
      omega

/-- The loop state an incremental run folds up: the per-message loop run
with the normalized owner over the prior watermark (`lastInternalDateMs
|| 0`) and the initial containers. -/
def syncFoldState (env : SyncEnv) (cursor0 : Option Nat)
    (emails0 : EmailStore) (jobs0 : JobStore) (msgs : List RemoteMsg) :
    StepState :=
  msgs.foldl (processMessage { env with owner := jsToLower (jsTrim env.owner) })
    { emails := emails0, jobs := jobs0,
      maxInternal := (readCursor cursor0).getD 0, docs := [],
      classifierCalls := 0 }

/-- Claim C2: on an incremental run (no query override, cursor advance not
suppressed) the sync succeeds, the cursor is persisted exactly when the
maximum `internalDateMs` observed across the run strictly exceeds the
prior watermark (so the stored cursor never decreases), and a run with no
remote messages returns `fetched = 0` with the cursor unchanged. -/
theorem cursor_monotone (env : SyncEnv) (opts : SyncOptions)
    (cursor0 : Option Nat) (emails0 : EmailStore) (jobs0 : JobStore)
    (msgs : List RemoteMsg)
    (hq : opts.queryOverride = "") (hsk : opts.skipStateUpdate = false)
    (how : jsToLower (jsTrim env.owner) ≠ "") :
    ∃ out, fetchAndStoreGmailEmails env opts cursor0 emails0 jobs0 msgs =
        .ok out ∧
      (out.cursor = cursor0 ∨
        ∃ v, out.cursor = some v ∧ (readCursor cursor0).getD 0 < v) ∧
      (readCursor cursor0).getD 0 ≤ (readCursor out.cursor).getD 0 ∧
      (msgs = [] → out.fetched = 0 ∧ out.cursor = cursor0) ∧
      out.cursor =
        (if (syncFoldState env cursor0 emails0 jobs0 msgs).maxInternal >
            (readCursor cursor0).getD 0 then
          some ((syncFoldState env cursor0 emails0 jobs0 msgs).maxInternal)
        else cursor0) := by
  unfold fetchAndStoreGmailEmails syncFoldState
  simp only [hq, hsk, if_neg how, eq_self_iff_true, if_true, decide_True,
    Bool.not_false, Bool.true_and, Bool.and_true]
  set F := msgs.foldl
      (processMessage { env with owner := jsToLower (jsTrim env.owner) })
      { emails := emails0, jobs := jobs0,
        maxInternal := (readCursor cursor0).getD 0, docs := [],
        classifierCalls := 0 } with hF
  split
  · next hlen =>
      have hmsgs : msgs = [] := by
        rw [hF, foldl_docs_len] at hlen
        simpa using hlen
      have hFmax : F.maxInternal = (readCursor cursor0).getD 0 := by
        rw [hF, hmsgs]
        simp
      refine ⟨_, rfl, Or.inl rfl, Nat.le_refl _, fun _ => ⟨rfl, rfl⟩, ?_⟩
      rw [hFmax]
      simp
  · next hlen =>
      by_cases hgt : F.maxInternal > (readCursor cursor0).getD 0
      · refine ⟨_, rfl, ?_, ?_, ?_, ?_⟩
        · right
          refine ⟨F.maxInternal, ?_, hgt⟩
          simp [hgt]
        · have hne : F.maxInternal ≠ 0 := by omega
          have hsome : readCursor (some F.maxInternal) = some F.maxInternal := by
            simp [readCursor, hne]
          simp [hgt, hsome]
          omega
        · intro hmsgs
          rw [hmsgs] at hF
          rw [hF] at hlen
          simp at hlen
        · simp [hgt]
      · refine ⟨_, rfl, Or.inl ?_, ?_, ?_, ?_⟩
        · simp [hgt]
        · simp [hgt]
        · intro hmsgs
          rw [hmsgs] at hF
          rw [hF] at hlen
          simp at hlen
        · simp [hgt]

/-- Witness for C2: the empty incremental run on a fresh owner returns
`fetched = 0` and leaves the absent cursor absent. -/
theorem cursor_monotone_witness :
    ∃ out, fetchAndStoreGmailEmails
        { owner := "a@x.com", fetchedAt := "f", nowIso := "n", nowMs := 1,
          today := "t", apiKeySet := true, jobsPresent := true }
        { queryOverride := "", skipStateUpdate := false }
        none emptyEmails emptyJobs [] = .ok out ∧
      (out.cursor = none ∨
        ∃ v, out.cursor = some v ∧ (readCursor none).getD 0 < v) ∧
      (readCursor none).getD 0 ≤ (readCursor out.cursor).getD 0 ∧
      (([] : List RemoteMsg) = [] → out.fetched = 0 ∧ out.cursor = none) ∧
      out.cursor =
        (if (syncFoldState
              { owner := "a@x.com", fetchedAt := "f", nowIso := "n",
                nowMs := 1, today := "t", apiKeySet := true,
                jobsPresent := true }
              none emptyEmails emptyJobs []).maxInternal >
            (readCursor none).getD 0 then
          some ((syncFoldState
              { owner := "a@x.com", fetchedAt := "f", nowIso := "n",
                nowMs := 1, today := "t", apiKeySet := true,
                jobsPresent := true }
              none emptyEmails emptyJobs []).maxInternal)
        else none) :=
  cursor_monotone
    { owner := "a@x.com", fetchedAt := "f", nowIso := "n", nowMs := 1,
      today := "t", apiKeySet := true, jobsPresent := true }
    { queryOverride := "", skipStateUpdate := false }
    none emptyEmails emptyJobs [] rfl rfl (by decide)

/-! ## Claim C10: behaviour without an API key -/

/-- Without an API key the gate condition is false, so one message step
neither touches the rollups nor calls the classifier, and the upserted
document's classification is exactly the carried-forward stored one. -/
theorem processMessage_noKey (env : SyncEnv) (st : StepState) (m : RemoteMsg)
    (hk : env.apiKeySet = false) :
    (processMessage env st m).jobs = st.jobs ∧
    (processMessage env st m).classifierCalls = st.classifierCalls ∧
    ((processMessage env st m).emails m.id).map EmailDoc.classification =
      some ((st.emails m.id).bind EmailDoc.classification) := by
  unfold processMessage
  cases hex : st.emails m.id with
  | none => simp [hex, hk, putEmail, buildDoc]
  | some ex => simp [hex, hk, putEmail, buildDoc]

/-- Without an API key the whole run keeps the rollups and makes zero
classifier calls. -/
theorem foldl_noKey (env : SyncEnv) (hk : env.apiKeySet = false) :
    ∀ (msgs : List RemoteMsg) (st : StepState),
      (msgs.foldl (processMessage env) st).jobs = st.jobs ∧
      (msgs.foldl (processMessage env) st).classifierCalls =
        st.classifierCalls := by
  intro msgs
  induction msgs with
  | nil => intro st; exact ⟨rfl, rfl⟩
  | cons m t ih =>
      intro st
      obtain ⟨h1, h2⟩ := ih (processMessage env st m)
      obtain ⟨g1, g2, _⟩ := processMessage_noKey env st m hk
      refine ⟨?_, ?_⟩
      · rw [List.foldl_cons, h1, g1]
      · rw [List.foldl_cons, h2, g2]

/-- Claim C10: with no OpenAI API key, `classifyEmail` returns `null`
without issuing any request whatever the transport would do; a message
step carries the stored classification forward unchanged and leaves the
rollups alone; and a whole sync run makes zero classifier calls and ends
with the rollup container untouched. -/
theorem no_api_key_no_classification (parse : String → Option Json)
    (r : FetchResult) (env : SyncEnv) (st : StepState) (m : RemoteMsg)
    (opts : SyncOptions) (cursor0 : Option Nat) (emails0 : EmailStore)
    (jobs0 : JobStore) (msgs : List RemoteMsg)
    (hk : env.apiKeySet = false) (how : jsToLower (jsTrim env.owner) ≠ "") :
    classifyEmail parse none r = (none, 0) ∧
    ((processMessage env st m).emails m.id).map EmailDoc.classification =
      some ((st.emails m.id).bind EmailDoc.classification) ∧
    (processMessage env st m).jobs = st.jobs ∧
    (∃ out, fetchAndStoreGmailEmails env opts cursor0 emails0 jobs0 msgs =
        .ok out ∧ out.jobs = jobs0 ∧ out.classifierCalls = 0) := by
  refine ⟨rfl, (processMessage_noKey env st m hk).2.2,
    (processMessage_noKey env st m hk).1, ?_⟩
  unfold fetchAndStoreGmailEmails
  rw [if_neg how]
  dsimp only
  split <;> split <;>
    · refine ⟨_, rfl, ?_, ?_⟩
      · exact (foldl_noKey
          { env with owner := jsToLower (jsTrim env.owner) } hk msgs _).1
      · exact (foldl_noKey
          { env with owner := jsToLower (jsTrim env.owner) } hk msgs _).2

/-- Witness for C10 at a concrete keyless environment. -/
theorem no_api_key_no_classification_witness :
    classifyEmail (fun _ => none) none FetchResult.transportError = (none, 0) ∧
    ((processMessage
          { owner := "a@x.com", fetchedAt := "f", nowIso := "n", nowMs := 1,
            today := "t", apiKeySet := false, jobsPresent := true }
          stC1 msgC1).emails msgC1.id).map EmailDoc.classification =
      some ((stC1.emails msgC1.id).bind EmailDoc.classification) ∧
    (processMessage
        { owner := "a@x.com", fetchedAt := "f", nowIso := "n", nowMs := 1,
          today := "t", apiKeySet := false, jobsPresent := true }
        stC1 msgC1).jobs = stC1.jobs ∧
    (∃ out, fetchAndStoreGmailEmails
        { owner := "a@x.com", fetchedAt := "f", nowIso := "n", nowMs := 1,
          today := "t", apiKeySet := false, jobsPresent := true }
        { queryOverride := "", skipStateUpdate := false }
        none emptyEmails emptyJobs [msgC1] = .ok out ∧
      out.jobs = emptyJobs ∧ out.classifierCalls = 0) :=
  no_api_key_no_classification (fun _ => none) FetchResult.transportError
    { owner := "a@x.com", fetchedAt := "f", nowIso := "n", nowMs := 1,
      today := "t", apiKeySet := false, jobsPresent := true }
    stC1 msgC1
    { queryOverride := "", skipStateUpdate := false }
    none emptyEmails emptyJobs [msgC1] rfl (by decide)

end GmailTracker
